import Mathlib

/-!
Verification development for the HeartDiseaseAI training harness
(src/Unet_/main.py and src/losses.py).

Tensors are shallowly embedded as nested lists of rationals: an Image is a
2-D grid (height x width), a Tensor3 is one sample (channels x H x W) and a
Tensor4 a batch of such samples.  Machine floating point is idealised as
exact rational arithmetic.  External torch primitives that the loss code
merely calls (softmax, binary cross entropy, sigmoid) are uninterpreted
parameters gathered in TorchOps; torchvision crop, whose index arithmetic
the spec pins down, is embedded concretely with its zero-padding semantics.
-/

abbrev Image := List (List ℚ)

abbrev Tensor3 := List Image

abbrev Tensor4 := List Tensor3

/-- Zero-padded read of one pixel of a 2-D grid: out-of-range reads give 0,
matching the zero padding that torchvision crop applies outside the canvas. -/
def pixel (g : Image) (i j : Nat) : ℚ :=
  (g.getD i []).getD j 0

/-- torchvision.transforms.functional.crop on one 2-D channel: the result is
always height x width, reading pixel (top + i, left + j) of the source and
zero-padding outside it.  Offsets are Nat because every claim about the crop
helpers restricts to sample sizes inside the 768 x 1024 canvas, where the
source offsets int((768-h)/2) and int((1024-w)/2) are non-negative. -/
def cropHW (top left h w : Nat) (g : Image) : Image :=
  (List.range h).map (fun i => (List.range w).map (fun j => pixel g (top + i) (left + j)))

/-- transF.crop applied to a channels x H x W tensor: crop every channel. -/
def transFcrop (t : Tensor3) (top left h w : Nat) : Tensor3 :=
  t.map (cropHW top left h w)

/-- BCELoss._crop (src/losses.py lines 18-23): offsets dh = int((768-h)/2),
dw = int((1024-w)/2), then transF.crop(img, dw, dh, h, w), i.e. dw is passed
in the top position and dh in the left position. -/
def BCELoss.crop (img : Tensor3) (input_shape : Nat × Nat) : Tensor3 :=
  let h := input_shape.1
  let w := input_shape.2
  let dh := (768 - h) / 2
  let dw := (1024 - w) / 2
  transFcrop img dw dh h w

/-- BCEDiceLoss._crop_single (src/losses.py lines 59-64): textually the same
computation as BCELoss._crop. -/
def BCEDiceLoss.cropSingle (img : Tensor3) (input_shape : Nat × Nat) : Tensor3 :=
  let h := input_shape.1
  let w := input_shape.2
  let dh := (768 - h) / 2
  let dw := (1024 - w) / 2
  transFcrop img dw dh h w

theorem getD_map_range {α : Type} (f : Nat → α) (d : α) {n i : Nat} (hi : i < n) :
    ((List.range n).map f).getD i d = f i := by
  simp [List.getD_eq_getElem?_getD, List.getElem?_map, List.getElem?_range hi]

theorem pixel_cropHW (top left h w : Nat) (g : Image) {i j : Nat}
    (hi : i < h) (hj : j < w) :
    pixel (cropHW top left h w g) i j = pixel g (top + i) (left + j) := by
  unfold cropHW
  unfold pixel
  rw [getD_map_range _ _ hi]
  rw [getD_map_range _ _ hj]

/-- Claim C3: for every sample height h and width w with 0 < h <= 768 and
0 < w <= 1024, the per-sample cropping helpers of both loss classes compute
the offsets dh = floor((768-h)/2) and dw = floor((1024-w)/2) by integer
floor division, and extract the h-by-w box whose (i, j) entry is the source
pixel at (dw + i, dh + j) (the horizontal offset dw is passed first, in the
top position of transF.crop); BCELoss._crop and BCEDiceLoss._crop_single
agree on all inputs. -/
theorem crop_offset_formula (h w : Nat)
    (hh0 : 0 < h) (hh : h ≤ 768) (hw0 : 0 < w) (hw : w ≤ 1024) (img : Tensor3) :
    (Int.floor ((768 - (h : ℚ)) / 2) = ((768 - h) / 2 : Nat)) ∧
    (Int.floor ((1024 - (w : ℚ)) / 2) = ((1024 - w) / 2 : Nat)) ∧
    BCELoss.crop img (h, w) = transFcrop img ((1024 - w) / 2) ((768 - h) / 2) h w ∧
    (∀ c, c ∈ BCELoss.crop img (h, w) → c.length = h ∧ ∀ r, r ∈ c → r.length = w) ∧
    (∀ c i j, i < h → j < w →
      pixel ((BCELoss.crop img (h, w)).getD c []) i j
        = pixel (img.getD c []) ((1024 - w) / 2 + i) ((768 - h) / 2 + j)) ∧
    (∀ shape, BCELoss.crop img shape = BCEDiceLoss.cropSingle img shape) := by
  refine ⟨?_, ?_, rfl, ?_, ?_, fun _ => rfl⟩
  · have hc : (768 - (h : ℚ)) = ((768 - h : Nat) : ℚ) := by
      push_cast [Nat.cast_sub hh]; ring
    rw [hc]
    have h2 : ((768 - h : Nat) : ℚ) = (((768 - h : Nat) : ℤ) : ℚ) := by push_cast; ring
    have h3 : (2 : ℚ) = ((2 : ℕ) : ℚ) := by norm_num
    rw [h2, h3, Rat.floor_intCast_div_natCast]
    rw [← Int.ofNat_ediv]
  · have hc : (1024 - (w : ℚ)) = ((1024 - w : Nat) : ℚ) := by
      push_cast [Nat.cast_sub hw]; ring
    rw [hc]
    have h2 : ((1024 - w : Nat) : ℚ) = (((1024 - w : Nat) : ℤ) : ℚ) := by push_cast; ring
    have h3 : (2 : ℚ) = ((2 : ℕ) : ℚ) := by norm_num
    rw [h2, h3, Rat.floor_intCast_div_natCast]
    rw [← Int.ofNat_ediv]
  · intro c hc
    obtain ⟨g, _, rfl⟩ := List.mem_map.mp hc
    constructor
    · simp [cropHW]
    · intro r hr
      obtain ⟨i, _, rfl⟩ := List.mem_map.mp hr
      simp [cropHW]
  · intro c i j hi hj
    show pixel ((List.map (cropHW ((1024 - w) / 2) ((768 - h) / 2) h w) img).getD c []) i j = _
    rcases Nat.lt_or_ge c img.length with hcl | hcl
    · cases hx : img[c]? with
      | none =>
        exact absurd (List.getElem?_eq_none_iff.mp hx) (Nat.not_le.mpr hcl)
      | some v =>
        have hg : img.getD c [] = v := by
          simp [List.getD_eq_getElem?_getD, hx]
        have hm : (List.map (cropHW ((1024 - w) / 2) ((768 - h) / 2) h w) img).getD c []
            = cropHW ((1024 - w) / 2) ((768 - h) / 2) h w v := by
          simp [List.getD_eq_getElem?_getD, List.getElem?_map, hx]
        rw [hm, hg, pixel_cropHW _ _ _ _ _ hi hj]
    · have h1 : (List.map (cropHW ((1024 - w) / 2) ((768 - h) / 2) h w) img).getD c [] = [] := by
        have : (List.map (cropHW ((1024 - w) / 2) ((768 - h) / 2) h w) img)[c]? = none := by
          rw [List.getElem?_eq_none_iff]; simpa using hcl
        simp [List.getD_eq_getElem?_getD, this]
      have h2 : img.getD c [] = ([] : Image) := by
        have : img[c]? = none := List.getElem?_eq_none_iff.mpr hcl
        simp [List.getD_eq_getElem?_getD, this]
      rw [h1, h2]
      simp [pixel]

/-- Concrete instance of crop_offset_formula at the sizes named by the spec:
h = 512, w = 768 give dh = 128 and dw = 128. -/
theorem crop_offset_formula_witness :
    ((0 < 512 ∧ 512 ≤ 768 ∧ 0 < 768 ∧ 768 ≤ 1024) ∧ ((768 - 512) / 2 : Nat) = 128
      ∧ ((1024 - 768) / 2 : Nat) = 128) ∧
    Int.floor ((768 - ((512 : Nat) : ℚ)) / 2) = ((768 - 512) / 2 : Nat) :=
  ⟨⟨by decide, by decide, by decide⟩,
    (crop_offset_formula 512 768 (by decide) (by decide) (by decide) (by decide) []).1⟩

/-- Concatenation of all rows of a list of lists (reshape(1, -1) building block). -/
def concatAll (l : List (List ℚ)) : List ℚ :=
  l.foldr (fun a b => a ++ b) []

/-- Flatten a 2-D grid to one row. -/
def flat2 (g : Image) : List ℚ :=
  concatAll g

/-- Flatten one sample (channels x H x W) to one row, as reshape(1, -1) does. -/
def flat3 (t : Tensor3) : List ℚ :=
  concatAll (t.map flat2)

/-- Flatten a 4-D tensor (the unsqueezed per-sample prediction) to one row. -/
def flat4 (t : Tensor4) : List ℚ :=
  concatAll (t.map flat3)

/-- Elementwise product of two flattened tensors, summed: the building block
of the accumulated Dice intersection. -/
def dotSum (a b : List ℚ) : ℚ :=
  (List.zipWith (fun x y => x * y) a b).sum

/-- External torch primitives called by the loss code.  They are parameters
of the embedding: the claims under verification constrain how their results
are combined, not their numeric values. -/
structure TorchOps where
  softmax0 : Tensor3 → Tensor3
  bce : Tensor4 → Tensor3 → ℚ → ℚ
  bceLogits2 : Tensor3 → Tensor3 → ℚ
  bceLogitsB : List Tensor3 → List Tensor3 → ℚ
  sigmoid : ℚ → ℚ

/-- Configuration fields of BCEDiceLoss, in the order of its __init__
parameters (src/losses.py lines 52-57): softmax is required, crop defaults
to True and crop_batch to False. -/
structure BCEDiceLossCfg where
  softmax : Bool
  crop : Bool
  crop_batch : Bool

/-- Python-call model of BCEDiceLoss.__init__: softmax has no default, so a
call that does not supply it raises TypeError; crop and crop_batch take
their defaults when absent.  Option encodes whether each argument was
supplied at the call site. -/
def BCEDiceLoss.init (softmax crop crop_batch : Option Bool) : Except String BCEDiceLossCfg :=
  match softmax with
  | none => .error ("TypeError: init missing 1 required positional argument: softmax")
  | some sm => .ok ⟨sm, crop.getD true, crop_batch.getD false⟩

/-- main.py line 158: criterion = BCEDiceLoss().cuda().  The constructor is
invoked with no arguments, and the parsed loss flag is never consulted, so
the construction is the same for every value of the loss flag. -/
def mainCriterion (lossFlag : String) : Except String BCEDiceLossCfg :=
  BCEDiceLoss.init none none none

/-- Loop body of the softmax branch of BCEDiceLoss.forward (src/losses.py
lines 96-108), one iteration of for i in range(n).  The accumulator carries
(bce, intersection, sum_x, sum_target). -/
def BCEDiceLoss.smStep (ops : TorchOps) (x target : List Tensor3)
    (input_shape : List Nat × List Nat) (weights : List ℚ)
    (acc : ℚ × ℚ × ℚ × ℚ) (i : Nat) : ℚ × ℚ × ℚ × ℚ :=
  let shp := (input_shape.1.getD i 0, input_shape.2.getD i 0)
  let xi := BCEDiceLoss.cropSingle (ops.softmax0 (x.getD i [])) shp
  let ti := BCEDiceLoss.cropSingle (target.getD i []) shp
  let xu : Tensor4 := [xi]
  let xf := flat4 xu
  let tf := flat3 ti
  (acc.1 + ops.bce xu ti (weights.getD i 0),
   acc.2.1 + dotSum xf tf,
   acc.2.2.1 + xf.sum,
   acc.2.2.2 + tf.sum)

/-- Softmax branch of BCEDiceLoss.forward (src/losses.py lines 94-113):
accumulate bce, intersection and mass sums over the batch, then
dice = (intersection * 2 + smooth) / (sum_x + sum_target + smooth),
dice = (1 - dice) / n and loss = 0.5 * bce + dice. -/
def BCEDiceLoss.forwardSoftmaxCrop (ops : TorchOps) (x target : List Tensor3)
    (input_shape : List Nat × List Nat) (weights : List ℚ) : ℚ :=
  let n := x.length
  let acc := (List.range n).foldl (BCEDiceLoss.smStep ops x target input_shape weights) (0, 0, 0, 0)
  let smooth : ℚ := 1 / 100000
  let dice0 := (acc.2.1 * 2 + smooth) / (acc.2.2.1 + acc.2.2.2 + smooth)
  let dice1 := (1 - dice0) / (n : ℚ)
  (1 / 2) * acc.1 + dice1

/-- Loop body of the cropped non-softmax branch of BCEDiceLoss.forward
(src/losses.py lines 119-131): like the softmax branch but with
binary_cross_entropy_with_logits, no softmax, no weight and no unsqueeze. -/
def BCEDiceLoss.nsStep (ops : TorchOps) (x target : List Tensor3)
    (input_shape : List Nat × List Nat)
    (acc : ℚ × ℚ × ℚ × ℚ) (i : Nat) : ℚ × ℚ × ℚ × ℚ :=
  let shp := (input_shape.1.getD i 0, input_shape.2.getD i 0)
  let xi := BCEDiceLoss.cropSingle (x.getD i []) shp
  let ti := BCEDiceLoss.cropSingle (target.getD i []) shp
  let xf := flat3 xi
  let tf := flat3 ti
  (acc.1 + ops.bceLogits2 xi ti,
   acc.2.1 + dotSum xf tf,
   acc.2.2.1 + xf.sum,
   acc.2.2.2 + tf.sum)

/-- Cropped non-softmax branch of BCEDiceLoss.forward (src/losses.py lines
117-135), same combination formula as the softmax branch. -/
def BCEDiceLoss.forwardNoSoftmaxCrop (ops : TorchOps) (x target : List Tensor3)
    (input_shape : List Nat × List Nat) : ℚ :=
  let n := x.length
  let acc := (List.range n).foldl (BCEDiceLoss.nsStep ops x target input_shape) (0, 0, 0, 0)
  let smooth : ℚ := 1 / 100000
  let dice0 := (acc.2.1 * 2 + smooth) / (acc.2.2.1 + acc.2.2.2 + smooth)
  let dice1 := (1 - dice0) / (n : ℚ)
  (1 / 2) * acc.1 + dice1

/-- Apply a scalar function to every element of a sample tensor. -/
def map3 (f : ℚ → ℚ) (t : Tensor3) : Tensor3 :=
  t.map (fun g => g.map (fun r => r.map f))

/-- Uncropped tail of BCEDiceLoss.forward (src/losses.py lines 138-151):
batch-level bce with logits, sigmoid, per-sample flattening, per-sample dice
vector, then dice loss 1 - dice.sum() / batch_num. -/
def BCEDiceLoss.forwardUncropped (ops : TorchOps) (x target : List Tensor3) : ℚ :=
  let bce := ops.bceLogitsB x target
  let smooth : ℚ := 1 / 100000
  let xs := x.map (fun t => flat3 (map3 ops.sigmoid t))
  let ts := target.map flat3
  let n := x.length
  let diceSum := ((List.range n).map (fun i =>
    (dotSum (xs.getD i []) (ts.getD i []) * 2 + smooth)
      / ((xs.getD i []).sum + (ts.getD i []).sum + smooth))).sum
  let dice := 1 - diceSum / (n : ℚ)
  (1 / 2) * bce + dice

/-- Python range(a, b) as a list of indices. -/
def pyrange (a b : Nat) : List Nat :=
  (List.range (b - a)).map (fun i => a + i)

/-- torch.cat along dim 1 of two channels x H x W tensors: concatenate the
row lists channel by channel. -/
def cat1 (t u : Tensor3) : Tensor3 :=
  List.zipWith (fun a b => a ++ b) t u

/-- The for loop of BCEDiceLoss._crop_batch (src/losses.py lines 73-80),
translated with its return statement inside the loop body: the first
iteration already returns, and falling off the end of the loop (an empty
index list, i.e. a batch of fewer than two samples) returns None because the
function body has no further return statement. -/
def BCEDiceLoss.cropBatchLoop (img : List Tensor3) (input_shape : List Nat × List Nat)
    (cropped : Tensor3) : List Nat → Option Tensor3
  | [] => none
  | i :: _ =>
    let h := input_shape.1.getD i 0
    let w := input_shape.2.getD i 0
    let dh := (768 - h) / 2
    let dw := (1024 - w) / 2
    some (cat1 cropped (transFcrop (img.getD i []) dw dh h w))

/-- torch.Tensor.size is a bound method, not an indexable sequence, so the
expression img.size[0] (src/losses.py line 67) raises TypeError for every
tensor, whatever index is asked for; the batch dimension is available only
through the call size(0). -/
def tensorSizeSubscript (img : List Tensor3) (i : Nat) : Except String Nat :=
  .error ("TypeError: builtin_function_or_method object is not subscriptable")

/-- The body of BCEDiceLoss._crop_batch below its first line (src/losses.py
lines 68-80), parameterized by the batch size n that the size subscript of
line 67 was meant to produce: initialize with the crop of sample 0, then run
the loop over samples 1..n-1. -/
def BCEDiceLoss.cropBatchBody (img : List Tensor3) (input_shape : List Nat × List Nat)
    (n : Nat) : Option Tensor3 :=
  let h := input_shape.1.getD 0 0
  let w := input_shape.2.getD 0 0
  let dh := (768 - h) / 2
  let dw := (1024 - w) / 2
  let cropped := transFcrop (img.getD 0 []) dw dh h w
  BCEDiceLoss.cropBatchLoop img input_shape cropped (pyrange 1 n)

/-- BCEDiceLoss._crop_batch (src/losses.py lines 66-80): its first line
n = img.size[0] subscripts the bound method Tensor.size and raises TypeError
before any cropping happens, so the initialization and the loop of the rest
of the body are never reached. -/
def BCEDiceLoss.cropBatch (img : List Tensor3) (input_shape : List Nat × List Nat) :
    Except String (Option Tensor3) :=
  match tensorSizeSubscript img 0 with
  | .error e => .error e
  | .ok n => .ok (BCEDiceLoss.cropBatchBody img input_shape n)

/-- Modelled from the spec: _crop_batch as section 4.1 of the spec reads it,
taking the size subscript of line 67 as the batch size (the spec flags only
the early return inside the loop as the structural defect); everything else,
including that early return, is the source body. -/
def specCropBatch (img : List Tensor3) (input_shape : List Nat × List Nat) :
    Option Tensor3 :=
  BCEDiceLoss.cropBatchBody img input_shape img.length

/-- BCEDiceLoss.forward (src/losses.py lines 82-151).  The crop_batch path
(crop set, softmax false, crop_batch set) calls the _crop_batch helper,
which raises TypeError at its size subscript, and would then fall through to
batch-level code indexing the reassigned x as a batch; that path never
produces a value in the source, so the dispatcher marks it None here.  The
three well-typed paths are embedded in full above. -/
def BCEDiceLoss.forward (ops : TorchOps) (self : BCEDiceLossCfg)
    (x target : List Tensor3) (input_shape : List Nat × List Nat)
    (weights : List ℚ) : Option ℚ :=
  if self.crop then
    if self.softmax then
      some (BCEDiceLoss.forwardSoftmaxCrop ops x target input_shape weights)
    else if self.crop_batch then
      none
    else
      some (BCEDiceLoss.forwardNoSoftmaxCrop ops x target input_shape)
  else
    some (BCEDiceLoss.forwardUncropped ops x target)

theorem flat4_singleton (t : Tensor3) : flat4 [t] = flat3 t := by
  simp [flat4, concatAll]

theorem smFold (ops : TorchOps) (x target : List Tensor3)
    (input_shape : List Nat × List Nat) (weights : List ℚ) (n : Nat) :
    (List.range n).foldl (BCEDiceLoss.smStep ops x target input_shape weights) (0, 0, 0, 0)
      = (((List.range n).map (fun i =>
            ops.bce [BCEDiceLoss.cropSingle (ops.softmax0 (x.getD i []))
                       (input_shape.1.getD i 0, input_shape.2.getD i 0)]
              (BCEDiceLoss.cropSingle (target.getD i [])
                 (input_shape.1.getD i 0, input_shape.2.getD i 0))
              (weights.getD i 0))).sum,
         ((List.range n).map (fun i =>
            dotSum (flat3 (BCEDiceLoss.cropSingle (ops.softmax0 (x.getD i []))
                       (input_shape.1.getD i 0, input_shape.2.getD i 0)))
                   (flat3 (BCEDiceLoss.cropSingle (target.getD i [])
                       (input_shape.1.getD i 0, input_shape.2.getD i 0))))).sum,
         ((List.range n).map (fun i =>
            (flat3 (BCEDiceLoss.cropSingle (ops.softmax0 (x.getD i []))
                       (input_shape.1.getD i 0, input_shape.2.getD i 0))).sum)).sum,
         ((List.range n).map (fun i =>
            (flat3 (BCEDiceLoss.cropSingle (target.getD i [])
                       (input_shape.1.getD i 0, input_shape.2.getD i 0))).sum)).sum) := by
  induction n with
  | zero => simp
  | succ m ih =>
    rw [List.range_succ, List.foldl_append, ih]
    simp only [List.foldl_cons, List.foldl_nil, List.map_append, List.sum_append,
      List.map_cons, List.map_nil, List.sum_cons, List.sum_nil]
    unfold BCEDiceLoss.smStep
    simp only [flat4_singleton]
    refine Prod.ext ?_ (Prod.ext ?_ (Prod.ext ?_ ?_)) <;> simp

/-- Claim C4: for every batch, with cropping enabled and softmax true,
BCEDiceLoss.forward returns 0.5 * bce + (1 - dice) / n where bce is the
running sum (not the average) of the per-sample weighted binary
cross-entropy terms over cropped softmaxed predictions, and
dice = (2 * intersection + smooth) / (sum_prediction + sum_target + smooth)
over totals accumulated across all samples, with smooth = 1e-5. -/
theorem forward_softmax_crop_formula (ops : TorchOps) (cb : Bool)
    (x target : List Tensor3) (input_shape : List Nat × List Nat) (weights : List ℚ) :
    BCEDiceLoss.forward ops ⟨true, true, cb⟩ x target input_shape weights
      = some ((1 / 2) *
          ((List.range x.length).map (fun i =>
            ops.bce [BCEDiceLoss.cropSingle (ops.softmax0 (x.getD i []))
                       (input_shape.1.getD i 0, input_shape.2.getD i 0)]
              (BCEDiceLoss.cropSingle (target.getD i [])
                 (input_shape.1.getD i 0, input_shape.2.getD i 0))
              (weights.getD i 0))).sum
        + (1 - (2 * ((List.range x.length).map (fun i =>
              dotSum (flat3 (BCEDiceLoss.cropSingle (ops.softmax0 (x.getD i []))
                         (input_shape.1.getD i 0, input_shape.2.getD i 0)))
                     (flat3 (BCEDiceLoss.cropSingle (target.getD i [])
                         (input_shape.1.getD i 0, input_shape.2.getD i 0))))).sum
              + 1 / 100000)
            / (((List.range x.length).map (fun i =>
                 (flat3 (BCEDiceLoss.cropSingle (ops.softmax0 (x.getD i []))
                     (input_shape.1.getD i 0, input_shape.2.getD i 0))).sum)).sum
               + ((List.range x.length).map (fun i =>
                 (flat3 (BCEDiceLoss.cropSingle (target.getD i [])
                     (input_shape.1.getD i 0, input_shape.2.getD i 0))).sum)).sum
               + 1 / 100000))
          / (x.length : ℚ)) := by
  show some (BCEDiceLoss.forwardSoftmaxCrop ops x target input_shape weights) = _
  simp only [BCEDiceLoss.forwardSoftmaxCrop, smFold]
  ring_nf

theorem pyrange_two_head (m : Nat) :
    pyrange 1 (m + 1 + 1) = 1 :: ((List.range m).map Nat.succ).map (fun i => 1 + i) := by
  simp only [pyrange]
  have hm : m + 1 + 1 - 1 = m + 1 := by omega
  rw [hm, List.range_succ_eq_map]
  simp

/-- Claim C5 (the code raises before the described behavior): every call of
BCEDiceLoss._crop_batch raises TypeError at its first line n = img.size[0],
which subscripts the bound method Tensor.size, so the initialization and the
concatenation loop are never reached; reading that subscript as the batch
size, as the spec does, the helper initializes with the crop of sample 0 and
its loop returns after the first iteration, so the returned tensor combines
only samples 0 and 1 and the remaining samples are discarded (the result
does not depend on them at all). -/
theorem crop_batch_size_subscript (a b : Tensor3) (rest : List Tensor3)
    (input_shape : List Nat × List Nat) :
    (∀ (img : List Tensor3) (ish : List Nat × List Nat),
      BCEDiceLoss.cropBatch img ish
        = Except.error ("TypeError: builtin_function_or_method object is not subscriptable")) ∧
    (specCropBatch (a :: b :: rest) input_shape
      = some (cat1
          (transFcrop a ((1024 - input_shape.2.getD 0 0) / 2)
            ((768 - input_shape.1.getD 0 0) / 2)
            (input_shape.1.getD 0 0) (input_shape.2.getD 0 0))
          (transFcrop b ((1024 - input_shape.2.getD 1 0) / 2)
            ((768 - input_shape.1.getD 1 0) / 2)
            (input_shape.1.getD 1 0) (input_shape.2.getD 1 0)))) ∧
    (∀ rest2 : List Tensor3, specCropBatch (a :: b :: rest) input_shape
      = specCropBatch (a :: b :: rest2) input_shape) := by
  have key : ∀ r : List Tensor3, specCropBatch (a :: b :: r) input_shape
      = some (cat1
          (transFcrop a ((1024 - input_shape.2.getD 0 0) / 2)
            ((768 - input_shape.1.getD 0 0) / 2)
            (input_shape.1.getD 0 0) (input_shape.2.getD 0 0))
          (transFcrop b ((1024 - input_shape.2.getD 1 0) / 2)
            ((768 - input_shape.1.getD 1 0) / 2)
            (input_shape.1.getD 1 0) (input_shape.2.getD 1 0))) := by
    intro r
    simp only [specCropBatch, BCEDiceLoss.cropBatchBody, List.length_cons]
    rw [pyrange_two_head]
    simp [BCEDiceLoss.cropBatchLoop, List.getD]
  exact ⟨fun _ _ => rfl, key rest, fun rest2 => (key rest).trans (key rest2).symm⟩

/-- Claim C2 (the code contradicts it): at startup the orchestrator always
constructs BCEDiceLoss as the criterion regardless of the loss flag, but it
passes no arguments at all, so the required softmax parameter is missing and
construction raises TypeError instead of satisfying the explicit-softmax
requirement of losses.py. -/
theorem main_criterion_missing_softmax (lossFlag : String) :
    mainCriterion lossFlag
      = Except.error ("TypeError: init missing 1 required positional argument: softmax") :=
  rfl

/-- Path of the checkpoint file (main.py line 266): the format string is
constant within a run, so every save targets the same file. -/
def checkpointPath (name : String) : String :=
  "models/" ++ name ++ "/model.pth"

/-- Keys of the OrderedDict that both train and validate return (main.py
lines 107 and 143): loss and ji. -/
def trainValLogKeys : List String :=
  ["loss", "ji"]

/-- Keys of the in-memory epoch log created at main.py lines 231-233:
epoch, loss, lr, iou, valid_loss, valid_accuracy. -/
def mainLogKeys : List String :=
  ["epoch", "loss", "lr", "iou", "valid_loss", "valid_accuracy"]

/-- Python dict lookup against a fixed key set: an absent key raises
KeyError. -/
def dictGet (keys : List String) (k : String) : Except String String :=
  if keys.contains k then .ok k
  else .error ("KeyError: " ++ k)

/-- The dict key lookups performed by the tail of each epoch of main
(main.py lines 246-265), in evaluation order: the scheduler step at 249
reads val_log[loss]; the summary print at 251-252 reads train_log[loss],
train_log[iou], val_log[loss], val_log[iou]; the log appends at 254-259
read log[epoch], log[lr], log[loss], log[iou], log[val_loss], log[val_iou];
the checkpoint test at 265 reads val_log[iou].  Since train and validate
return only the keys loss and ji and the log has valid_loss and
valid_accuracy instead of val_loss and val_iou, the epoch aborts at the
first mismatched lookup, train_log[iou] in the print of line 252, before
the trigger, checkpoint and early-stopping code of lines 263-274 runs. -/
def mainEpochTail : Except String Unit := do
  let _ ← dictGet trainValLogKeys ("loss")
  let _ ← dictGet trainValLogKeys ("loss")
  let _ ← dictGet trainValLogKeys ("iou")
  let _ ← dictGet trainValLogKeys ("loss")
  let _ ← dictGet trainValLogKeys ("iou")
  let _ ← dictGet mainLogKeys ("epoch")
  let _ ← dictGet mainLogKeys ("lr")
  let _ ← dictGet mainLogKeys ("loss")
  let _ ← dictGet mainLogKeys ("iou")
  let _ ← dictGet mainLogKeys ("val_loss")
  let _ ← dictGet mainLogKeys ("val_iou")
  let _ ← dictGet trainValLogKeys ("iou")
  pure ()

/-- Per-run mutable state of the epoch loop of main (main.py lines 235-236
and 254-274): the tracked best validation IoU, the epochs-since-improvement
counter, the epoch indices appended to the log, and the checkpoint writes
performed so far (epoch index and target path). -/
structure RunState where
  best_iou : ℚ
  trigger : Nat
  logged : List Nat
  saves : List (Nat × String)

/-- Initial state: best_iou = 0, trigger = 0 (main.py lines 235-236). -/
def runInit : RunState :=
  ⟨0, 0, [], []⟩

/-- The trigger, checkpoint and early-stopping logic of one epoch (main.py
lines 254-274) as the spec reads it, with the validation IoU of the epoch
supplied as a rational value: append the epoch to the log, increment
trigger, on strict IoU improvement save the checkpoint, update best_iou and
reset trigger, then report whether the early-stopping break fires
(early_stopping non-negative and trigger at or above it).  In the source
this code is dead: the mismatched dict keys modelled in mainEpochTail abort
every epoch with KeyError before it runs, and val_log[iou] at line 265 is
itself such a mismatch. -/
def epochBody (name : String) (es : Int) (e : Nat) (iou : ℚ) (s : RunState) :
    RunState × Bool :=
  let s1 : RunState := ⟨s.best_iou, s.trigger + 1, s.logged ++ [e], s.saves⟩
  let s2 : RunState :=
    if s1.best_iou < iou then
      ⟨iou, 0, s1.logged, s1.saves ++ [(e, checkpointPath name)]⟩
    else s1
  (s2, decide (0 ≤ es) && decide (es ≤ (s2.trigger : Int)))

/-- The epoch loop of main (main.py lines 238-274) over a given sequence of
per-epoch validation IoU values, breaking when epochBody reports the
early-stopping condition. -/
def runLoop (name : String) (es : Int) : Nat → RunState → List ℚ → RunState
  | _, s, [] => s
  | e, s, iou :: rest =>
    let r := epochBody name es e iou s
    if r.2 then r.1 else runLoop name es (e + 1) r.1 rest

/-- A whole run from the initial state at epoch 0. -/
def runEpochs (name : String) (es : Int) (ious : List ℚ) : RunState :=
  runLoop name es 0 runInit ious

/-- Running maximum of a list of IoU values, seeded with the initial
best_iou of 0: the best value seen so far after processing the list. -/
def max0 (P : List ℚ) : ℚ :=
  P.foldl max 0

theorem max0_append_single (P : List ℚ) (x : ℚ) :
    max0 (P ++ [x]) = max (max0 P) x := by
  simp [max0]

theorem max0_le_append (P Q : List ℚ) : max0 P ≤ max0 (P ++ Q) := by
  induction Q generalizing P with
  | nil => simp
  | cons q Q ih =>
    have h1 : P ++ q :: Q = (P ++ [q]) ++ Q := by simp
    rw [h1]
    refine le_trans ?_ (ih (P ++ [q]))
    rw [max0_append_single]
    exact le_max_left _ _

/-- Correspondence between the recorded checkpoint writes and the processed
IoU prefix P: a write is recorded for epoch e exactly when the IoU of epoch
e strictly exceeded the running best over the earlier epochs, and it always
targets the single per-run checkpoint path. -/
def savesOK (name : String) (P : List ℚ) (sv : List (Nat × String)) : Prop :=
  ∀ e p, (e, p) ∈ sv ↔
    (e < P.length ∧ max0 (P.take e) < P.getD e 0 ∧ p = checkpointPath name)

theorem take_append_lt {P : List ℚ} {iou : ℚ} {e : Nat} (he : e < P.length) :
    (P ++ [iou]).take e = P.take e :=
  List.take_append_of_le_length (Nat.le_of_lt he)

theorem getD_append_lt {P : List ℚ} {iou : ℚ} {e : Nat} (he : e < P.length) :
    (P ++ [iou]).getD e 0 = P.getD e 0 := by
  simp [List.getD_eq_getElem?_getD, List.getElem?_append_left he]

theorem getD_append_self (P : List ℚ) (iou : ℚ) :
    (P ++ [iou]).getD P.length 0 = iou := by
  simp [List.getD_eq_getElem?_getD, List.getElem?_concat_length]

theorem length_append_single {α : Type} (P : List α) (x : α) :
    (P ++ [x]).length = P.length + 1 := by
  simp

theorem epochBody_step (name : String) (es : Int) (iou : ℚ) (P : List ℚ) (s : RunState)
    (hb : s.best_iou = max0 P) (hl : s.logged = List.range P.length)
    (hs : savesOK name P s.saves) :
    (epochBody name es P.length iou s).1.best_iou = max0 (P ++ [iou]) ∧
    (epochBody name es P.length iou s).1.logged = List.range (P.length + 1) ∧
    savesOK name (P ++ [iou]) (epochBody name es P.length iou s).1.saves := by
  by_cases himp : s.best_iou < iou
  · have hred : (epochBody name es P.length iou s).1
        = ⟨iou, 0, s.logged ++ [P.length], s.saves ++ [(P.length, checkpointPath name)]⟩ := by
      simp [epochBody, himp]
    rw [hred]
    refine ⟨?_, ?_, ?_⟩
    · rw [max0_append_single, ← hb, max_eq_right (le_of_lt himp)]
    · rw [hl, List.range_succ]
    · intro e p
      simp only [savesOK] at hs ⊢
      simp only [length_append_single]
      constructor
      · intro hmem
        rcases List.mem_append.mp hmem with hin | hone
        · obtain ⟨helt, hmax, hp⟩ := (hs e p).mp hin
          refine ⟨by omega, ?_, hp⟩
          rw [take_append_lt helt, getD_append_lt helt]
          exact hmax
        · have hep : e = P.length ∧ p = checkpointPath name := by
            simpa [Prod.ext_iff] using hone
          obtain ⟨he, hp⟩ := hep
          subst he
          refine ⟨by omega, ?_, hp⟩
          rw [List.take_left, getD_append_self, ← hb]
          exact himp
      · rintro ⟨helt, hmax, hp⟩
        rcases Nat.lt_succ_iff_lt_or_eq.mp helt with hlt | heq
        · rw [take_append_lt hlt, getD_append_lt hlt] at hmax
          exact List.mem_append.mpr (Or.inl ((hs e p).mpr ⟨hlt, hmax, hp⟩))
        · subst heq
          subst hp
          exact List.mem_append.mpr (Or.inr (by simp))
  · have hred : (epochBody name es P.length iou s).1
        = ⟨s.best_iou, s.trigger + 1, s.logged ++ [P.length], s.saves⟩ := by
      simp [epochBody, himp]
    rw [hred]
    refine ⟨?_, ?_, ?_⟩
    · have hle : iou ≤ max0 P := by rw [← hb]; exact not_lt.mp himp
      rw [max0_append_single, max_eq_left hle]
      exact hb
    · rw [hl, List.range_succ]
    · intro e p
      simp only [savesOK] at hs ⊢
      simp only [length_append_single]
      constructor
      · intro hmem
        obtain ⟨helt, hmax, hp⟩ := (hs e p).mp hmem
        refine ⟨by omega, ?_, hp⟩
        rw [take_append_lt helt, getD_append_lt helt]
        exact hmax
      · rintro ⟨helt, hmax, hp⟩
        rcases Nat.lt_succ_iff_lt_or_eq.mp helt with hlt | heq
        · rw [take_append_lt hlt, getD_append_lt hlt] at hmax
          exact (hs e p).mpr ⟨hlt, hmax, hp⟩
        · subst heq
          rw [List.take_left, getD_append_self] at hmax
          rw [hb] at himp
          exact absurd hmax himp

theorem runLoop_chr (name : String) (es : Int) :
    ∀ (R P : List ℚ) (s : RunState),
      s.best_iou = max0 P → s.logged = List.range P.length → savesOK name P s.saves →
      ∃ k, k ≤ R.length ∧
        (runLoop name es P.length s R).best_iou = max0 (P ++ R.take k) ∧
        (runLoop name es P.length s R).logged = List.range (P.length + k) ∧
        savesOK name (P ++ R.take k) (runLoop name es P.length s R).saves := by
  intro R
  induction R with
  | nil =>
    intro P s hb hl hs
    exact ⟨0, by simp, by simpa using hb, by simpa using hl, by simpa using hs⟩
  | cons iou rest ih =>
    intro P s hb hl hs
    obtain ⟨h1, h2, h3⟩ := epochBody_step name es iou P s hb hl hs
    by_cases hbrk : (epochBody name es P.length iou s).2 = true
    · refine ⟨1, by simp, ?_, ?_, ?_⟩
      · rw [runLoop, if_pos hbrk]
        simpa using h1
      · rw [runLoop, if_pos hbrk]
        simpa using h2
      · rw [runLoop, if_pos hbrk]
        simpa using h3
    · have hlen : (P ++ [iou]).length = P.length + 1 := length_append_single P iou
      have h2x : (epochBody name es P.length iou s).1.logged
          = List.range (P ++ [iou]).length := by rw [hlen]; exact h2
      obtain ⟨k, hk, hbk, hlk, hsk⟩ :=
        ih (P ++ [iou]) (epochBody name es P.length iou s).1 h1 h2x h3
      rw [hlen] at hbk hlk hsk
      refine ⟨k + 1, by simpa using Nat.succ_le_succ hk, ?_, ?_, ?_⟩
      · rw [runLoop, if_neg hbrk]
        have : P ++ (iou :: rest).take (k + 1) = (P ++ [iou]) ++ rest.take k := by
          simp [List.take_cons]
        rw [this]
        exact hbk
      · rw [runLoop, if_neg hbrk]
        have : P.length + (k + 1) = P.length + 1 + k := by omega
        rw [this]
        exact hlk
      · rw [runLoop, if_neg hbrk]
        have : P ++ (iou :: rest).take (k + 1) = (P ++ [iou]) ++ rest.take k := by
          simp [List.take_cons]
        rw [this]
        exact hsk

/-- Claim C1 (the code never reaches its checkpoint logic): the epoch tail
of main reads train_log[iou] and val_log[iou] although train and validate
return the key ji, and log[val_loss] and log[val_iou] although the log is
created with valid_loss and valid_accuracy, so every epoch aborts with
KeyError: iou at the summary print before the checkpoint block of lines
263-269 runs and no checkpoint is ever written; the checkpoint logic
itself, read with a per-epoch validation IoU value as the spec does,
records a write exactly when the epoch strictly improves on the running
best (the running maximum of the earlier validation IoU values, seeded
with 0), always to the single per-run path models/name/model.pth, with the
tracked best equal to the running maximum of the processed prefix, which
is monotonically non-decreasing across epochs. -/
theorem checkpoint_code_unreachable (name : String) (es : Int) (ious : List ℚ) :
    mainEpochTail = Except.error ("KeyError: iou") ∧
    ("iou" ∉ trainValLogKeys ∧ "ji" ∈ trainValLogKeys ∧
      "val_loss" ∉ mainLogKeys ∧ "valid_loss" ∈ mainLogKeys) ∧
    (∀ e p, (e, p) ∈ (runEpochs name es ious).saves ↔
      (e ∈ (runEpochs name es ious).logged ∧ max0 (ious.take e) < ious.getD e 0
        ∧ p = checkpointPath name)) ∧
    (runEpochs name es ious).best_iou
      = max0 (ious.take (runEpochs name es ious).logged.length) ∧
    (∀ a d, max0 (ious.take a) ≤ max0 (ious.take (a + d))) := by
  have hinit : runInit.best_iou = max0 [] ∧ runInit.logged = List.range (List.length ([] : List ℚ))
      ∧ savesOK name ([] : List ℚ) runInit.saves := by
    refine ⟨rfl, rfl, ?_⟩
    intro e p
    simp [runInit]
  obtain ⟨k, hk, hbk, hlk, hsk⟩ :=
    runLoop_chr name es ious [] runInit hinit.1 hinit.2.1 hinit.2.2
  have hrun : runEpochs name es ious = runLoop name es 0 runInit ious := rfl
  have hlen0 : List.length ([] : List ℚ) = 0 := rfl
  rw [hlen0] at hbk hlk hsk
  simp only [List.nil_append, Nat.zero_add] at hbk hlk hsk
  refine ⟨rfl, by decide, ?_, ?_, ?_⟩
  · intro e p
    rw [hrun, hlk]
    constructor
    · intro hmem
      obtain ⟨helt, hmax, hp⟩ := (hsk e p).mp (by rw [← hrun]; exact hmem)
      have hlt : e < k := by
        have h0 := helt
        rw [List.length_take] at h0
        omega
      have ht : (ious.take k).take e = ious.take e := by
        rw [List.take_take, min_eq_left (Nat.le_of_lt hlt)]
      have hg : (ious.take k).getD e 0 = ious.getD e 0 := by
        simp [List.getD_eq_getElem?_getD, List.getElem?_take, hlt]
      rw [ht, hg] at hmax
      exact ⟨List.mem_range.mpr hlt, hmax, hp⟩
    · rintro ⟨hmem, hmax, hp⟩
      have hlt : e < k := List.mem_range.mp hmem
      have ht : (ious.take k).take e = ious.take e := by
        rw [List.take_take, min_eq_left (Nat.le_of_lt hlt)]
      have hg : (ious.take k).getD e 0 = ious.getD e 0 := by
        simp [List.getD_eq_getElem?_getD, List.getElem?_take, hlt]
      rw [← hrun]
      refine (hsk e p).mpr ⟨?_, by rw [ht, hg]; exact hmax, hp⟩
      rw [List.length_take]
      omega
  · rw [hrun, hbk, hlk, List.length_range]
  · intro a d
    have hab : a ≤ a + d := Nat.le_add_right a d
    have ht : (ious.take (a + d)).take a = ious.take a := by
      rw [List.take_take, min_eq_left hab]
    calc max0 (ious.take a) = max0 ((ious.take (a + d)).take a) := by rw [ht]
      _ ≤ max0 ((ious.take (a + d)).take a ++ (ious.take (a + d)).drop a) :=
          max0_le_append _ _
      _ = max0 (ious.take (a + d)) := by rw [List.take_append_drop]

/-- Claim C6 (the code never reaches its early-stopping logic): every epoch
aborts with KeyError: iou at the summary print of main.py lines 251-252,
before the trigger, checkpoint and break code of lines 263-274 runs, so no
epoch is ever fully processed or logged; the trigger logic itself, read
with per-epoch validation IoU values as the spec does, increments the
counter every epoch and resets it to 0 exactly on strict improvement, the
body reports the break exactly when the updated counter has reached the
non-negative threshold and the loop then stops immediately, and with
early_stopping = 2 and validation IoUs [0.5, 0.4, 0.3] it would process
and log exactly the three epochs 0, 1, 2. -/
theorem early_stopping_code_unreachable (esN : Nat) (name : String) (e : Nat) (iou : ℚ)
    (s : RunState) :
    mainEpochTail = Except.error ("KeyError: iou") ∧
    ("iou" ∉ trainValLogKeys ∧ "ji" ∈ trainValLogKeys) ∧
    ((epochBody name (esN : Int) e iou s).1.trigger
      = if s.best_iou < iou then 0 else s.trigger + 1) ∧
    ((epochBody name (esN : Int) e iou s).2 = true
      ↔ esN ≤ (epochBody name (esN : Int) e iou s).1.trigger) ∧
    (∀ rest : List ℚ, runLoop name (esN : Int) e s (iou :: rest)
      = if (epochBody name (esN : Int) e iou s).2
          then (epochBody name (esN : Int) e iou s).1
          else runLoop name (esN : Int) (e + 1) (epochBody name (esN : Int) e iou s).1 rest) ∧
    (runEpochs "run" 2 [1/2, 2/5, 3/10]).logged = [0, 1, 2] := by
  refine ⟨rfl, by decide, ?_, ?_, fun rest => rfl,
    by norm_num [runEpochs, runLoop, epochBody, runInit]⟩
  · by_cases himp : s.best_iou < iou
    · simp [epochBody, himp]
    · simp [epochBody, himp]
  · constructor
    · intro hbrk
      simp only [epochBody, Bool.and_eq_true, decide_eq_true_eq] at hbrk
      exact_mod_cast hbrk.2
    · intro hle
      simp only [epochBody, Bool.and_eq_true, decide_eq_true_eq]
      exact ⟨Int.natCast_nonneg esN, by exact_mod_cast hle⟩

/-- Attribute names exposed by the Python standard library module os.path
that are relevant here (modelled from the documented stdlib interface): the
extension splitter is named splitext; there is no attribute splittext. -/
def osPathAttributes : List String :=
  ["basename", "splitext", "join", "dirname", "exists"]

/-- Python attribute lookup on os.path: a name outside the module raises
AttributeError. -/
def osPathGetattr (a : String) : Except String String :=
  if osPathAttributes.contains a then .ok a
  else .error ("AttributeError: module os.path has no attribute " ++ a)

/-- os.path.basename: the final path component, i.e. the characters after
the last slash (modelled for slash-separated paths). -/
def osPathBasename (p : String) : String :=
  String.mk (p.data.foldl (fun cur c => if c == ('/' : Char) then [] else cur ++ [c]) [])

/-- os.path.splitext (modelled from the Python stdlib for file names whose
extension dot, if any, is not the leading character): split off the part
from the last dot onwards. -/
def osPathSplitext (p : String) : String × String :=
  let rev := p.data.reverse
  if rev.contains ('.' : Char) then
    (String.mk ((rev.dropWhile (fun c => c != ('.' : Char))).drop 1).reverse,
     String.mk (('.' : Char) :: (rev.takeWhile (fun c => c != ('.' : Char))).reverse))
  else
    (p, "")

/-- The identifier computation of main.py line 190: the list comprehension
evaluates os.path.splittext (a misspelling of splitext) for every globbed
path, so with a non-empty glob result the attribute lookup raises
AttributeError before any stem is produced; with an empty glob result the
comprehension never evaluates it and yields the empty list. -/
def mainTrainImgIds (train_dirs : List String) : Except String (List String) :=
  if train_dirs.isEmpty then .ok []
  else
    match osPathGetattr ("splittext") with
    | .error e => .error e
    | .ok _ =>
      .ok ((train_dirs.map (fun p => (osPathSplitext (osPathBasename p)).1)).dedup)

/-- Modelled from the spec: the intended identifier discovery of section 4.3
(glob two levels under the split directory, take each basename stem with
splitext, de-duplicate into a set), which main.py line 190 fails to reach
because of the splittext misspelling. -/
def specImgIds (dirs : List String) : Finset String :=
  (dirs.map (fun p => (osPathSplitext (osPathBasename p)).1)).toFinset

/-- Claim C7 (the code crashes where the claim says identifiers are
computed): os.path has no attribute splittext, so the stem extraction of
main.py line 190 raises AttributeError on the example file list instead of
producing identifiers; the intended computation described by the spec,
using the real splitext, yields exactly the identifier set p001, p002 on
that example. -/
theorem img_id_discovery_splittext :
    mainTrainImgIds ["train/A2C/p001.img", "train/A2C/p001.mask", "train/A4C/p002.img"]
      = Except.error ("AttributeError: module os.path has no attribute splittext") ∧
    ("splittext" ∉ osPathAttributes ∧ "splitext" ∈ osPathAttributes) ∧
    specImgIds ["train/A2C/p001.img", "train/A2C/p001.mask", "train/A4C/p002.img"]
      = {"p001", "p002"} := by
  refine ⟨rfl, by decide, ?_⟩
  decide

/-- Parameter names of BCELoss.forward after self (src/losses.py line 24). -/
def BCELoss.forwardParams : List String :=
  ["predict", "target", "input_shape", "weights"]

/-- Parameter names of BCEDiceLoss.forward after self (src/losses.py line 82). -/
def BCEDiceLoss.forwardParams : List String :=
  ["x", "target", "input_shape", "weights"]

/-- Parameter names of LovaszHingeLoss.forward after self (src/losses.py
line 160): only two. -/
def LovaszHingeLoss.forwardParams : List String :=
  ["input", "target"]

/-- The forward parameter lists of the three loss classes of the library. -/
def lossForwardParamLists : List (List String) :=
  [BCELoss.forwardParams, BCEDiceLoss.forwardParams, LovaszHingeLoss.forwardParams]

/-- Argument expressions of the criterion invocations in the train loop
(main.py lines 86 and 92): three positional arguments. -/
def trainCriterionCallArgs : List String :=
  ["output", "target", "input_shape"]

/-- Argument expressions of the criterion invocations in the validation loop
(main.py lines 126 and 132): the same three positional arguments. -/
def validateCriterionCallArgs : List String :=
  ["output", "target", "input_shape"]

/-- Outcome of binding positional arguments to the required parameters of a
Python function with no defaults: success, or a TypeError naming the unbound
parameters, or a TypeError for surplus positional arguments. -/
inductive PyCallOutcome where
  | ok : PyCallOutcome
  | missing : List String → PyCallOutcome
  | extra : Nat → PyCallOutcome
deriving DecidableEq

/-- Python positional binding against required-only parameters. -/
def bindCall (params : List String) (nargs : Nat) : PyCallOutcome :=
  if params.length < nargs then .extra (nargs - params.length)
  else if nargs < params.length then .missing (params.drop nargs)
  else .ok

/-- Claim C8 fails as stated: not every loss forward method in the library
takes four arguments, because LovaszHingeLoss.forward takes two. -/
theorem loss_forward_arity_counterexample :
    ¬ (∀ ps, ps ∈ lossForwardParamLists → ps.length = 4) := by
  decide

/-- Claim C8 as amended: BCELoss.forward and BCEDiceLoss.forward take four
arguments (prediction, target, input_shape, weights) while
LovaszHingeLoss.forward takes two; the training and validation loops invoke
the criterion with three positional arguments, so under BCELoss or
BCEDiceLoss every per-batch invocation omits exactly the required weights
argument and reaches the missing-argument error branch, while under
LovaszHingeLoss it errors with one surplus argument instead. -/
theorem loss_forward_arity_mismatch :
    bindCall BCELoss.forwardParams trainCriterionCallArgs.length
      = PyCallOutcome.missing ["weights"] ∧
    bindCall BCEDiceLoss.forwardParams trainCriterionCallArgs.length
      = PyCallOutcome.missing ["weights"] ∧
    bindCall LovaszHingeLoss.forwardParams trainCriterionCallArgs.length
      = PyCallOutcome.extra 1 ∧
    bindCall BCELoss.forwardParams validateCriterionCallArgs.length
      = PyCallOutcome.missing ["weights"] ∧
    bindCall BCEDiceLoss.forwardParams validateCriterionCallArgs.length
      = PyCallOutcome.missing ["weights"] ∧
    bindCall LovaszHingeLoss.forwardParams validateCriterionCallArgs.length
      = PyCallOutcome.extra 1 := by
  refine ⟨rfl, rfl, rfl, rfl, rfl, rfl⟩

/-- Parameter names of the train function (main.py line 63). -/
def trainParams : List String :=
  ["net", "train_loader", "criterion", "optimizer", "config"]

/-- Parameter names of the validate function (main.py line 109). -/
def validateParams : List String :=
  ["net", "valid_loader", "criterion", "config"]

/-- Argument expressions, in order, of the call train(train_loader, net,
criterion, optimizer, config) in main (main.py line 242). -/
def mainTrainArgs : List String :=
  ["train_loader", "net", "criterion", "optimizer", "config"]

/-- Argument expressions, in order, of the call validate(valid_loader, net,
criterion, config) in main (main.py line 244). -/
def mainValidateArgs : List String :=
  ["valid_loader", "net", "criterion", "config"]

/-- Positional binding of caller argument expressions to callee parameters. -/
def bindPositional (params args : List String) : List (String × String) :=
  params.zip args

/-- The caller expression bound to a given parameter name. -/
def lookupBound (b : List (String × String)) (param : String) : Option String :=
  (b.find? (fun e => e.1 == param)).map (fun e => e.2)

/-- Receiver of the mode call in the body of train: net.train() (main.py
line 73). -/
def trainModeReceiver : String :=
  "net"

/-- Iterable of the batch loop in the body of train: for ... in train_loader
(main.py line 77). -/
def trainLoopIterable : String :=
  "train_loader"

/-- Receiver of the mode call in the body of validate: net.eval() (main.py
line 112). -/
def validateModeReceiver : String :=
  "net"

/-- Iterable of the batch loop in the body of validate (main.py line 116). -/
def validateLoopIterable : String :=
  "valid_loader"

/-- Claim C9: main passes the data loader first and the network second,
while train and validate declare the network first and the loader second,
so in every epoch the loader is bound to the net parameter and the network
to the loader parameter; consequently the mode call of each loop (train or
eval) is performed on the caller object train_loader or valid_loader (the
data loader) and the batch loop iterates over the caller object net (the
network). -/
theorem train_validate_swapped_arguments :
    lookupBound (bindPositional trainParams mainTrainArgs) "net" = some "train_loader" ∧
    lookupBound (bindPositional trainParams mainTrainArgs) "train_loader" = some "net" ∧
    lookupBound (bindPositional validateParams mainValidateArgs) "net" = some "valid_loader" ∧
    lookupBound (bindPositional validateParams mainValidateArgs) "valid_loader" = some "net" ∧
    lookupBound (bindPositional trainParams mainTrainArgs) trainModeReceiver
      = some "train_loader" ∧
    lookupBound (bindPositional trainParams mainTrainArgs) trainLoopIterable = some "net" ∧
    lookupBound (bindPositional validateParams mainValidateArgs) validateModeReceiver
      = some "valid_loader" ∧
    lookupBound (bindPositional validateParams mainValidateArgs) validateLoopIterable
      = some "net" := by
  refine ⟨rfl, rfl, rfl, rfl, rfl, rfl, rfl, rfl⟩

/-- Configuration keys produced by parse_args (main.py lines 33-58): one key
per declared flag, named after the flag.  The input-channel flag stores its
value under input_channel_num. -/
def parseArgsKeys : List String :=
  ["name", "model", "loss", "deep_supervision", "num_classes", "threshold",
   "input_channel_num", "lr", "start_filter", "scheduler", "min_lr", "patience",
   "optimizer", "momentum", "weight_decay"]

/-- Python dict lookup on the parsed configuration: an undeclared key raises
KeyError. -/
def configGet (k : String) : Except String String :=
  if parseArgsKeys.contains k then .ok k
  else .error ("KeyError: " ++ k)

/-- Model construction in main (main.py lines 165-168): for ARUNet read only
num_classes; for every other architecture read num_classes, input_channels
and deep_supervision in that order, failing on the first undeclared key. -/
def mainConstructNet (m : String) : Except String (List String) :=
  if m == "ARUNet" then do
    let a ← configGet ("num_classes")
    pure [a]
  else do
    let a ← configGet ("num_classes")
    let b ← configGet ("input_channels")
    let c ← configGet ("deep_supervision")
    pure [a, b, c]

/-- Claim C10: for every selected architecture other than ARUNet, model
construction reads the configuration key input_channels, which no CLI flag
defines (the declared flag stores its value under input_channel_num), so
the lookup raises KeyError. -/
theorem model_construction_missing_key (m : String) (hm : m ≠ "ARUNet") :
    mainConstructNet m = Except.error ("KeyError: input_channels") ∧
    "input_channel_num" ∈ parseArgsKeys ∧
    "input_channels" ∉ parseArgsKeys := by
  have hb : (m == "ARUNet") = false := by
    exact beq_eq_false_iff_ne.mpr hm
  refine ⟨?_, by decide, by decide⟩
  simp only [mainConstructNet, hb]
  rfl

/-- Concrete instance of model_construction_missing_key at the default
architecture UNetPP. -/
theorem model_construction_missing_key_witness :
    ("UNetPP" ≠ "ARUNet") ∧
    mainConstructNet "UNetPP" = Except.error ("KeyError: input_channels") :=
  ⟨by decide, (model_construction_missing_key "UNetPP" (by decide)).1⟩
